import Mathlib

set_option maxHeartbeats 1000000
set_option autoImplicit false

/-! Shallow embedding of the packet relay engine of `src/nrf/src/packet_relay.rs`
(repository `meshtassy`).  Machine integers (`u8`, `u32`, `u64`) are modelled as
`Nat`; where the source truncates (the `as u32` cast of elapsed milliseconds) an
explicit `% 2 ^ 32` appears.  `embassy_time::Instant` values are modelled as a
monotone millisecond count passed explicitly to each operation that calls
`Instant::now()` in the source. -/

/-- Model of the `meshtastic_protobufs::meshtastic::PortNum` enum: the variants the
relay engine distinguishes, plus representatives for the remaining ports. -/
inductive PortNum where
  | RoutingApp
  | TextMessageApp
  | NodeinfoApp
  | PositionApp
  | TelemetryApp
  | AdminApp
  | WaypointApp
deriving DecidableEq, Repr

/-- Model of `femtopb::EnumValue`: a decoded protobuf enum field is either a known
variant or an unrecognized raw wire value. -/
inductive EnumValue (α : Type) where
  | Known : α → EnumValue α
  | Unknown : Int → EnumValue α
deriving DecidableEq, Repr

/-- Flag bits of the 16-byte Meshtastic frame header (`hop_limit`, `hop_start`
are 3-bit fields; `want_ack`, `via_mqtt` single bits). -/
structure HeaderFlags where
  hop_limit : Nat
  hop_start : Nat
  want_ack : Bool
  via_mqtt : Bool
deriving DecidableEq, Repr

/-- The decoded frame header (all multi-byte fields are `u32` on the wire). -/
structure Header where
  destination : Nat
  source : Nat
  packet_id : Nat
  flags : HeaderFlags
  channel_hash : Nat
  next_hop : Nat
  relay_node : Nat
deriving DecidableEq, Repr

/-- The fields of the decoded application payload (`meshtastic Data` message) that
the relay engine consults: the port tag and the `want_response` flag. -/
structure PacketData where
  portnum : EnumValue PortNum
  want_response : Bool
deriving DecidableEq, Repr

/-- Model of `meshtassy_net::DecodedPacket`: header, signal quality and the decoded
payload record. -/
structure DecodedPacket where
  header : Header
  rssi : Int
  snr : Int
  data : PacketData
deriving DecidableEq, Repr

/-- Accessor `DecodedPacket::port_num()`: the port tag of the decoded payload. -/
def DecodedPacket.port_num (p : DecodedPacket) : EnumValue PortNum :=
  p.data.portnum

/-- Models `MAX_PENDING_PACKETS` (packet_relay.rs line 21). -/
def MAX_PENDING_PACKETS : Nat := 16

/-- Models `NUM_RELIABLE_RETX` (line 24). -/
def NUM_RELIABLE_RETX : Nat := 3

/-- Models `NUM_ACK_RETX` (line 27). -/
def NUM_ACK_RETX : Nat := 4

/-- Models `NUM_TEXT_RETX` (line 30). -/
def NUM_TEXT_RETX : Nat := 2

/-- Models `MIN_HOP_DELAY_MS` (line 33). -/
def MIN_HOP_DELAY_MS : Nat := 200

/-- Models `MAX_HOP_DELAY_MS` (line 36). -/
def MAX_HOP_DELAY_MS : Nat := 300

/-- Models `HOP_PENALTY_MS` (line 39). -/
def HOP_PENALTY_MS : Nat := 50

/-- Models `RETX_INTERVALS` (line 42): retransmission intervals in milliseconds. -/
def RETX_INTERVALS : List Nat := [5000, 15000, 30000, 60000, 120000]

/-- Models `CHANNEL_BUSY_BASE_DELAY_MS` (line 45). -/
def CHANNEL_BUSY_BASE_DELAY_MS : Nat := 100

/-- Models `MAX_CHANNEL_BUSY_RETRIES` (line 48). -/
def MAX_CHANNEL_BUSY_RETRIES : Nat := 8

/-- Models `MAX_PACKET_AGE_MS` (line 51). -/
def MAX_PACKET_AGE_MS : Nat := 60000

/-- Models `OUR_NODE_ID` (line 54): hardcoded node id `0xDEADBEEF`. -/
def OUR_NODE_ID : Nat := 0xDEADBEEF

/-- Models `CHANNEL_UTIL_LIMIT` (line 57): 10 percent. -/
def CHANNEL_UTIL_LIMIT : Nat := 10

/-- One past the largest `u32` value; the source casts elapsed milliseconds with
`as u32`, i.e. reduces them modulo this constant. -/
def U32_MOD : Nat := 2 ^ 32

/-- Models `RelayStats` (lines 60-84): monotone counters. -/
structure RelayStats where
  packets_received : Nat
  packets_queued : Nat
  packets_transmitted : Nat
  packets_dropped : Nat
  packets_expired : Nat
  channel_busy_events : Nat
  duty_cycle_blocks : Nat
  implicit_acks : Nat
  loop_prevention_drops : Nat
  retransmissions : Nat
  current_duty_cycle_percent : Nat
deriving DecidableEq, Repr

/-- Models `RelayStats::default()`: all counters zero. -/
def RelayStats.zero : RelayStats :=
  ⟨0, 0, 0, 0, 0, 0, 0, 0, 0, 0, 0⟩

/-- Models `RelayError` (lines 87-101). -/
inductive RelayError where
  | QueueFull
  | DutyCycleExceeded
  | ChannelBusy
  | TransmissionFailed : String → RelayError
  | InvalidPacket : String → RelayError
  | NotInitialized
deriving DecidableEq, Repr

/-- Error text of `validate_packet` (line 351). -/
def msgPacketIdZero : String := "Packet ID cannot be zero"

/-- Error text of `validate_packet` (line 356). -/
def msgHopStartHigh : String := "Hop start too high"

/-- Error text of `validate_packet` (lines 360-362). -/
def msgHopLimitExceeds : String := "Hop limit cannot exceed hop start"

/-- Error text of `validate_packet` (line 367). -/
def msgInvalidSource : String := "Invalid source node ID"

/-- Priority constants (lines 104-112). -/
def priorityUNSET : Nat := 0

/-- Priority constant `MIN` (line 106). -/
def priorityMIN : Nat := 1

/-- Priority constant `BACKGROUND` (line 107). -/
def priorityBACKGROUND : Nat := 10

/-- Priority constant `DEFAULT` (line 108). -/
def priorityDEFAULT : Nat := 64

/-- Priority constant `RELIABLE` (line 109). -/
def priorityRELIABLE : Nat := 70

/-- Priority constant `ACK` (line 110). -/
def priorityACK : Nat := 120

/-- Priority constant `MAX` (line 111). -/
def priorityMAX : Nat := 127

/-- Models `PendingPacket` (lines 122-141): a packet pending (re)transmission. -/
structure PendingPacket where
  packet : DecodedPacket
  queued_at : Nat
  next_tx_time : Nat
  max_retransmissions : Nat
  retry_count : Nat
  channel_busy_count : Nat
  wants_ack : Bool
  priority : Nat
deriving DecidableEq, Repr

/-- Models `PendingPacket::retransmissions_left` (lines 145-147). -/
def PendingPacket.retransmissions_left (p : PendingPacket) : Nat :=
  p.max_retransmissions - p.retry_count

/-- Models `PendingPacket::has_retransmissions_left` (lines 150-152). -/
def PendingPacket.has_retransmissions_left (p : PendingPacket) : Bool :=
  p.retry_count < p.max_retransmissions

/-- Models `DutyCycleTracker` (lines 172-181). -/
structure DutyCycleTracker where
  total_airtime_ms : Nat
  period_start : Nat
  utilization_limit : Nat
  period_length_secs : Nat
deriving DecidableEq, Repr

/-- Models `DutyCycleTracker::new` (lines 184-191); `now` models `Instant::now()`. -/
def DutyCycleTracker.new (now : Nat) (utilization_limit : Nat) : DutyCycleTracker :=
  ⟨0, now, utilization_limit, 3600⟩

/-- Models `DutyCycleTracker::can_transmit` (lines 194-209).  `period_elapsed_ms` is the
`as u32` truncation of the elapsed milliseconds; `saturating_add` and
`saturating_mul` on `u32` are modelled with `min`. -/
def DutyCycleTracker.can_transmit (t : DutyCycleTracker) (now : Nat)
    (packet_airtime_ms : Nat) : Bool :=
  let period_elapsed_ms := (now - t.period_start) % U32_MOD
  if t.period_length_secs * 1000 % U32_MOD ≤ period_elapsed_ms then
    true
  else
    let new_total_airtime := min (t.total_airtime_ms + packet_airtime_ms) (U32_MOD - 1)
    let period_length_ms := min (t.period_length_secs * 1000) (U32_MOD - 1)
    let new_utilization_percent := new_total_airtime * 100 / period_length_ms
    new_utilization_percent ≤ t.utilization_limit

/-- Models `DutyCycleTracker::record_transmission` (lines 212-223). -/
def DutyCycleTracker.record_transmission (t : DutyCycleTracker) (now : Nat)
    (packet_airtime_ms : Nat) : DutyCycleTracker :=
  let period_elapsed_ms := (now - t.period_start) % U32_MOD
  if t.period_length_secs * 1000 % U32_MOD ≤ period_elapsed_ms then
    { t with total_airtime_ms := packet_airtime_ms, period_start := now }
  else
    { t with total_airtime_ms := t.total_airtime_ms + packet_airtime_ms }

/-- Models `DutyCycleTracker::get_utilization_percent` (lines 226-237). -/
def DutyCycleTracker.get_utilization_percent (t : DutyCycleTracker) (now : Nat) : Nat :=
  let period_elapsed_ms := (now - t.period_start) % U32_MOD
  if t.period_length_secs * 1000 % U32_MOD ≤ period_elapsed_ms then
    0
  else
    min (t.total_airtime_ms * 100 / (t.period_length_secs * 1000)) 100

/-- Models `RelayState` (lines 156-169).  `pending_packets` models the
`FnvIndexMap<u32, PendingPacket, 16>` as its underlying insertion-ordered entry
list; `recent_packets` models the `heapless::spsc::Queue<u32, 32>` (capacity 31,
front of the list = head of the queue). -/
structure RelayState where
  pending_packets : List (Nat × PendingPacket)
  recent_packets : List Nat
  our_node_id : Nat
  rx_boost_enabled : Bool
  duty_cycle : DutyCycleTracker
  stats : RelayStats
deriving DecidableEq, Repr

/-- Models `RelayState::new` (lines 241-250); `now` models `Instant::now()`. -/
def RelayState.new (now : Nat) : RelayState :=
  { pending_packets := []
    recent_packets := []
    our_node_id := OUR_NODE_ID
    rx_boost_enabled := true
    duty_cycle := DutyCycleTracker.new now CHANNEL_UTIL_LIMIT
    stats := RelayStats.zero }

/-- Lookup in the entry list of an insertion-ordered index map (`FnvIndexMap::get`):
the value of the first entry whose key matches. -/
def mapLookup : List (Nat × PendingPacket) → Nat → Option PendingPacket
  | [], _ => none
  | kv :: rest, k => if kv.1 = k then some kv.2 else mapLookup rest k

/-- In-place value update of an index map (`FnvIndexMap::get_mut` followed by field
assignments): every entry with the given key has its value rewritten, positions
unchanged. -/
def pendingUpdate (m : List (Nat × PendingPacket)) (k : Nat)
    (f : PendingPacket → PendingPacket) : List (Nat × PendingPacket) :=
  m.map fun kv => if kv.1 = k then (kv.1, f kv.2) else kv

/-- Replace the first entry with the given key by the supplied entry (the first
half of an index-map `swap_remove`). -/
def replaceFirst : List (Nat × PendingPacket) → Nat → (Nat × PendingPacket) →
    List (Nat × PendingPacket)
  | [], _, _ => []
  | kv :: rest, k, newkv =>
    if kv.1 = k then newkv :: rest else kv :: replaceFirst rest k newkv

/-- Models `FnvIndexMap::remove`: a swap-remove.  The entry holding the key is overwritten
with the last entry of the backing vector, whose slot is then popped. -/
def swapRemove (m : List (Nat × PendingPacket)) (k : Nat) :
    List (Nat × PendingPacket) :=
  if (mapLookup m k).isSome then
    match m.getLast? with
    | none => m
    | some last => (replaceFirst m k last).dropLast
  else m

/-- Models `FnvIndexMap::insert` with capacity `cap`: replaces the value when the key is
present; appends when there is room; otherwise fails (returns the map unchanged
and `false`). -/
def fnvIndexMapInsert (m : List (Nat × PendingPacket)) (cap : Nat) (k : Nat)
    (v : PendingPacket) : List (Nat × PendingPacket) × Bool :=
  if (mapLookup m k).isSome then
    (pendingUpdate m k (fun _ => v), true)
  else if m.length < cap then
    (m ++ [(k, v)], true)
  else
    (m, false)

/-- Models `RelayState::is_recent_packet` (lines 253-255). -/
def RelayState.is_recent_packet (st : RelayState) (packet_id : Nat) : Bool :=
  st.recent_packets.any fun id => id = packet_id

/-- Models `RelayState::add_recent_packet` (lines 258-263): dequeue the oldest id when the
queue is full (a `heapless::spsc::Queue<u32, 32>` holds at most 31 elements), then
enqueue. -/
def RelayState.add_recent_packet (st : RelayState) (packet_id : Nat) : RelayState :=
  let q := if st.recent_packets.length = 31 then st.recent_packets.tail
           else st.recent_packets
  { st with recent_packets := q ++ [packet_id] }

/-- Models `RelayState::validate_packet` (lines 348-371).  The source method takes `&self`
but does not read it. -/
def validate_packet (packet : DecodedPacket) : Except RelayError Unit :=
  if packet.header.packet_id = 0 then
    .error (.InvalidPacket msgPacketIdZero)
  else if 7 < packet.header.flags.hop_start then
    .error (.InvalidPacket msgHopStartHigh)
  else if packet.header.flags.hop_start < packet.header.flags.hop_limit then
    .error (.InvalidPacket msgHopLimitExceeds)
  else if packet.header.source = 0 ∨ packet.header.source = 0xFFFFFFFF then
    .error (.InvalidPacket msgInvalidSource)
  else
    .ok ()

/-- The port match of `should_relay` (lines 322-336): only the five listed
application ports are relayed. -/
def relay_port_allowed : EnumValue PortNum → Bool
  | .Known .RoutingApp => true
  | .Known .TextMessageApp => true
  | .Known .NodeinfoApp => true
  | .Known .PositionApp => true
  | .Known .TelemetryApp => true
  | _ => false

/-- Models `RelayState::should_relay` (lines 265-346).  Increments `packets_received`,
validates, then applies the deny rules in source order; returns the updated state
together with the decision. -/
def RelayState.should_relay (st : RelayState) (packet : DecodedPacket) :
    RelayState × Except RelayError Bool :=
  let st1 := { st with stats :=
    { st.stats with packets_received := st.stats.packets_received + 1 } }
  match validate_packet packet with
  | .error e => (st1, .error e)
  | .ok _ =>
    if packet.header.source = st1.our_node_id then
      (st1, .ok false)
    else if st1.is_recent_packet packet.header.packet_id then
      ({ st1 with stats := { st1.stats with
          loop_prevention_drops := st1.stats.loop_prevention_drops + 1 } },
       .ok false)
    else if packet.header.flags.hop_limit = 0 then
      (st1, .ok false)
    else if packet.header.destination = st1.our_node_id then
      (st1, .ok false)
    else
      (st1, .ok (relay_port_allowed packet.port_num))

/-- The pure decision component of `should_relay`: same deny chain, no statistics.
Introduced to state that the decision depends only on `our_node_id` and
`recent_packets`; proved equal to `(should_relay ·).2` below. -/
def relay_decision (our_node_id : Nat) (recent : List Nat)
    (packet : DecodedPacket) : Except RelayError Bool :=
  match validate_packet packet with
  | .error e => .error e
  | .ok _ =>
    if packet.header.source = our_node_id then .ok false
    else if recent.any (fun id => id = packet.header.packet_id) then .ok false
    else if packet.header.flags.hop_limit = 0 then .ok false
    else if packet.header.destination = our_node_id then .ok false
    else .ok (relay_port_allowed packet.port_num)

/-- Models `get_max_retransmissions` (lines 604-614). -/
def get_max_retransmissions (packet : DecodedPacket) (wants_ack : Bool) : Nat :=
  if !wants_ack then 0
  else
    match packet.port_num with
    | .Known .RoutingApp => NUM_ACK_RETX
    | .Known .TextMessageApp => NUM_TEXT_RETX
    | _ => NUM_RELIABLE_RETX

/-- Models `packet_wants_ack` (lines 617-624): only routing packets are treated as wanting
an acknowledgment. -/
def packet_wants_ack (packet : DecodedPacket) : Bool :=
  match packet.port_num with
  | .Known .RoutingApp => true
  | _ => false

/-- Models `get_packet_priority` (lines 595-601). -/
def get_packet_priority (packet : DecodedPacket) : Nat :=
  match packet.port_num with
  | .Known .RoutingApp => priorityACK
  | .Known .TextMessageApp => priorityDEFAULT
  | _ => priorityDEFAULT

/-- Models `calculate_packet_airtime` (lines 584-592): constant 250 ms estimate. -/
def calculate_packet_airtime (_packet : DecodedPacket) : Nat := 250

/-- Models `RelayState::queue_packet` (lines 398-436).  `now` models `Instant::now()`;
`delay_ms` models the result of `calculate_relay_delay` (lines 374-396), which the
source computes from the clock with `f32` arithmetic and a clock-seeded
linear-congruential jitter and is therefore passed in as a parameter. -/
def RelayState.queue_packet (st : RelayState) (now delay_ms : Nat)
    (packet : DecodedPacket) (wants_ack : Bool) (priority : Nat) :
    RelayState × Except RelayError Unit :=
  let max_retransmissions := get_max_retransmissions packet wants_ack
  let pending : PendingPacket :=
    { packet := packet
      queued_at := now
      next_tx_time := now + delay_ms
      max_retransmissions := max_retransmissions
      retry_count := 0
      channel_busy_count := 0
      wants_ack := wants_ack
      priority := priority }
  let packet_id := packet.header.packet_id
  let ins := fnvIndexMapInsert st.pending_packets MAX_PENDING_PACKETS packet_id pending
  if ins.2 then
    let st2 := { st with pending_packets := ins.1, stats :=
      { st.stats with packets_queued := st.stats.packets_queued + 1 } }
    (st2.add_recent_packet packet_id, .ok ())
  else
    ({ st with stats :=
      { st.stats with packets_dropped := st.stats.packets_dropped + 1 } },
     .error .QueueFull)

/-- Models `RelayState::handle_implicit_ack` (lines 438-455). -/
def RelayState.handle_implicit_ack (st : RelayState) (packet : DecodedPacket) :
    RelayState :=
  if packet.header.source = st.our_node_id then
    if (mapLookup st.pending_packets packet.header.packet_id).isSome then
      { st with
        pending_packets := swapRemove st.pending_packets packet.header.packet_id
        stats := { st.stats with implicit_acks := st.stats.implicit_acks + 1 } }
    else st
  else st

/-- The scan of `get_next_ready_packet` (lines 479-484): first entry in map
iteration order whose transmit time has arrived. -/
def findReady (now : Nat) : List (Nat × PendingPacket) → Option (Nat × DecodedPacket)
  | [] => none
  | kv :: rest =>
    if kv.2.next_tx_time ≤ now then some (kv.1, kv.2.packet) else findReady now rest

/-- Models `RelayState::get_next_ready_packet` (lines 475-487). -/
def RelayState.get_next_ready_packet (st : RelayState) (now : Nat) :
    Option (Nat × DecodedPacket) :=
  findReady now st.pending_packets

/-- The retry interval selection of `handle_transmitted_packet` (lines 498-502),
applied to the already incremented `retry_count`. -/
def retxInterval (retry_count : Nat) : Nat :=
  if retry_count ≤ RETX_INTERVALS.length then
    RETX_INTERVALS.getD (retry_count - 1) 0
  else
    RETX_INTERVALS.getD (RETX_INTERVALS.length - 1) 0

/-- Models `RelayState::handle_transmitted_packet` (lines 489-519).  The `u8` increment of
`retry_count` is guarded by `retry_count < max_retransmissions`, so it cannot
overflow. -/
def RelayState.handle_transmitted_packet (st : RelayState) (now packet_id : Nat) :
    RelayState :=
  match mapLookup st.pending_packets packet_id with
  | none => st
  | some pending =>
    let st1 := { st with stats :=
      { st.stats with packets_transmitted := st.stats.packets_transmitted + 1 } }
    if pending.has_retransmissions_left then
      let rc := pending.retry_count + 1
      let upd := fun p : PendingPacket =>
        { p with retry_count := rc, next_tx_time := now + retxInterval rc }
      { st1 with
        pending_packets := pendingUpdate st1.pending_packets packet_id upd
        stats := { st1.stats with
          retransmissions := st1.stats.retransmissions + 1 } }
    else
      { st1 with pending_packets := swapRemove st1.pending_packets packet_id }

/-- Models `RelayState::handle_channel_busy` (lines 521-546). -/
def RelayState.handle_channel_busy (st : RelayState) (now packet_id : Nat) :
    RelayState :=
  match mapLookup st.pending_packets packet_id with
  | none => st
  | some pending =>
    let bc := pending.channel_busy_count + 1
    let st1 := { st with stats :=
      { st.stats with channel_busy_events := st.stats.channel_busy_events + 1 } }
    if bc ≤ MAX_CHANNEL_BUSY_RETRIES then
      let upd := fun p : PendingPacket =>
        { p with channel_busy_count := bc
                 next_tx_time := now + CHANNEL_BUSY_BASE_DELAY_MS * 2 ^ bc }
      { st1 with pending_packets := pendingUpdate st1.pending_packets packet_id upd }
    else
      { st1 with
        pending_packets := swapRemove st1.pending_packets packet_id
        stats := { st1.stats with
          packets_dropped := st1.stats.packets_dropped + 1 } }

/-- The per-packet receive step of `packet_relay_task_impl` (lines 716-741):
implicit-ACK handling first, then the relay decision, then queueing on admission.
`now` and `delay_ms` parameterize the clock reads exactly as in `queue_packet`. -/
def relay_receive_step (st : RelayState) (now delay_ms : Nat)
    (packet : DecodedPacket) : RelayState :=
  let st1 := st.handle_implicit_ack packet
  let r := st1.should_relay packet
  match r.2 with
  | .ok true =>
    let priority := get_packet_priority packet
    let wants_ack := packet_wants_ack packet
    (r.1.queue_packet now delay_ms packet wants_ack priority).1
  | .ok false => r.1
  | .error _ => r.1

/-- The duty-cycle gate of the transmit path of `packet_relay_task_impl`
(lines 779-790): when a pending packet is ready but the duty-cycle gate refuses
its airtime estimate, `duty_cycle_blocks` is incremented and the packet is left in
the queue; the returned flag says whether transmission may proceed. -/
def relay_duty_gate_step (st : RelayState) (now : Nat) : RelayState × Bool :=
  match st.get_next_ready_packet now with
  | none => (st, false)
  | some pp =>
    let packet_airtime_ms := calculate_packet_airtime pp.2
    if !(st.duty_cycle.can_transmit now packet_airtime_ms) then
      ({ st with stats := { st.stats with
          duty_cycle_blocks := st.stats.duty_cycle_blocks + 1 } },
       false)
    else
      (st, true)

/-- Iterated successful transmissions of one pending packet: folds
`handle_transmitted_packet` over a list of transmit instants. -/
def transmitN (st : RelayState) (packet_id : Nat) (nows : List Nat) : RelayState :=
  nows.foldl (fun s now => s.handle_transmitted_packet now packet_id) st

/-! Helper lemmas about the index-map model. -/

theorem mapLookup_eq_none_iff (m : List (Nat × PendingPacket)) (k : Nat) :
    mapLookup m k = none ↔ k ∉ m.map Prod.fst := by
  induction m with
  | nil => simp [mapLookup]
  | cons kv rest ih =>
    simp only [mapLookup, List.map_cons, List.mem_cons]
    by_cases hk : kv.1 = k
    · simp [hk]
    · simp only [if_neg hk, ih]
      constructor
      · intro h hmem
        rcases hmem with h1 | h1
        · exact hk h1.symm
        · exact h h1
      · intro h h1
        exact h (Or.inr h1)

theorem mapLookup_decomp (m : List (Nat × PendingPacket)) (k : Nat)
    (v : PendingPacket) (h : mapLookup m k = some v) :
    ∃ l1 l2, m = l1 ++ (k, v) :: l2 ∧ ∀ kv ∈ l1, kv.1 ≠ k := by
  induction m with
  | nil => simp [mapLookup] at h
  | cons kv rest ih =>
    by_cases hk : kv.1 = k
    · refine ⟨[], rest, ?_, by simp⟩
      simp only [mapLookup, if_pos hk, Option.some.injEq] at h
      cases kv
      simp_all
    · simp only [mapLookup, if_neg hk] at h
      obtain ⟨l1, l2, rfl, hl1⟩ := ih h
      refine ⟨kv :: l1, l2, rfl, ?_⟩
      intro x hx
      rcases List.mem_cons.mp hx with rfl | hx2
      · exact hk
      · exact hl1 x hx2

theorem replaceFirst_decomp (l1 l2 : List (Nat × PendingPacket)) (k : Nat)
    (v : PendingPacket) (x : Nat × PendingPacket) (h : ∀ kv ∈ l1, kv.1 ≠ k) :
    replaceFirst (l1 ++ (k, v) :: l2) k x = l1 ++ x :: l2 := by
  induction l1 with
  | nil => simp [replaceFirst]
  | cons a l1 ih =>
    have ha : a.1 ≠ k := h a (by simp)
    have ih2 := ih fun kv hkv => h kv (by simp [hkv])
    simp only [List.cons_append, replaceFirst, if_neg ha, List.append_eq]
    rw [ih2]

theorem swapRemove_perm (m : List (Nat × PendingPacket)) (k : Nat)
    (v : PendingPacket) (h : mapLookup m k = some v) :
    ((k, v) :: swapRemove m k).Perm m := by
  obtain ⟨l1, l2, rfl, hl1⟩ := mapLookup_decomp m k v h
  rcases List.eq_nil_or_concat' l2 with rfl | ⟨l2', b, rfl⟩
  · have hg : (l1 ++ [(k, v)]).getLast? = some (k, v) := List.getLast?_concat _
    simp only [swapRemove, h, Option.isSome_some, if_pos, hg]
    rw [replaceFirst_decomp l1 [] k v (k, v) hl1, List.dropLast_concat]
    have hp := @List.perm_middle (Nat × PendingPacket) (k, v) l1 []
    rw [List.append_nil] at hp
    exact hp.symm
  · have hg : (l1 ++ (k, v) :: (l2' ++ [b])).getLast? = some b := by
      rw [show l1 ++ (k, v) :: (l2' ++ [b]) = (l1 ++ (k, v) :: l2') ++ [b] by simp]
      exact List.getLast?_concat _
    simp only [swapRemove, h, Option.isSome_some, if_pos, hg]
    rw [replaceFirst_decomp l1 (l2' ++ [b]) k v b hl1,
        show l1 ++ b :: (l2' ++ [b]) = (l1 ++ b :: l2') ++ [b] by simp,
        List.dropLast_concat]
    refine List.Perm.trans (List.Perm.cons (k, v) ?_) List.perm_middle.symm
    refine List.Perm.append_left l1 ?_
    have hp := @List.perm_middle (Nat × PendingPacket) b l2' []
    rw [List.append_nil] at hp
    exact hp.symm

theorem swapRemove_lookup_self (m : List (Nat × PendingPacket)) (k : Nat)
    (v : PendingPacket) (hnd : (m.map Prod.fst).Nodup)
    (h : mapLookup m k = some v) :
    mapLookup (swapRemove m k) k = none := by
  have hperm := (swapRemove_perm m k v h).map Prod.fst
  have hnd2 : (((k, v) :: swapRemove m k).map Prod.fst).Nodup :=
    hperm.nodup_iff.mpr hnd
  simp only [List.map_cons, List.nodup_cons] at hnd2
  exact (mapLookup_eq_none_iff _ _).mpr hnd2.1

theorem swapRemove_length (m : List (Nat × PendingPacket)) (k : Nat)
    (v : PendingPacket) (h : mapLookup m k = some v) :
    (swapRemove m k).length + 1 = m.length := by
  simpa using (swapRemove_perm m k v h).length_eq

theorem pendingUpdate_lookup_self (m : List (Nat × PendingPacket)) (k : Nat)
    (f : PendingPacket → PendingPacket) :
    mapLookup (pendingUpdate m k f) k = (mapLookup m k).map f := by
  induction m with
  | nil => simp [mapLookup, pendingUpdate]
  | cons kv rest ih =>
    simp only [pendingUpdate, List.map_cons] at ih ⊢
    by_cases hk : kv.1 = k
    · simp [mapLookup, hk]
    · simp [mapLookup, hk, ih]

theorem pendingUpdate_keys (m : List (Nat × PendingPacket)) (k : Nat)
    (f : PendingPacket → PendingPacket) :
    (pendingUpdate m k f).map Prod.fst = m.map Prod.fst := by
  induction m with
  | nil => simp [pendingUpdate]
  | cons kv rest ih =>
    simp only [pendingUpdate, List.map_cons] at ih ⊢
    by_cases hk : kv.1 = k
    · simp [hk, ih]
    · simp [hk, ih]

/-! Structural lemmas about `should_relay` and friends. -/

theorem validate_packet_ok_iff (p : DecodedPacket) :
    validate_packet p = .ok () ↔
      p.header.packet_id ≠ 0 ∧ p.header.flags.hop_start ≤ 7 ∧
      p.header.flags.hop_limit ≤ p.header.flags.hop_start ∧
      p.header.source ≠ 0 ∧ p.header.source ≠ 0xFFFFFFFF := by
  unfold validate_packet
  split_ifs with h1 h2 h3 h4 <;> simp_all
  omega

theorem should_relay_snd (st : RelayState) (p : DecodedPacket) :
    (st.should_relay p).2 = relay_decision st.our_node_id st.recent_packets p := by
  unfold RelayState.should_relay relay_decision
  cases hv : validate_packet p with
  | error e => simp
  | ok u =>
    simp only [RelayState.is_recent_packet]
    split_ifs <;> rfl

theorem should_relay_fst_fields (st : RelayState) (p : DecodedPacket) :
    (st.should_relay p).1.pending_packets = st.pending_packets ∧
    (st.should_relay p).1.recent_packets = st.recent_packets ∧
    (st.should_relay p).1.our_node_id = st.our_node_id ∧
    (st.should_relay p).1.stats.implicit_acks = st.stats.implicit_acks := by
  refine ⟨?_, ?_, ?_, ?_⟩ <;>
  · unfold RelayState.should_relay
    cases hv : validate_packet p with
    | error e => rfl
    | ok u =>
      dsimp only
      split_ifs <;> rfl

theorem handle_implicit_ack_fields (st : RelayState) (p : DecodedPacket) :
    (st.handle_implicit_ack p).our_node_id = st.our_node_id ∧
    (st.handle_implicit_ack p).recent_packets = st.recent_packets := by
  unfold RelayState.handle_implicit_ack
  split_ifs <;> simp

theorem relay_port_allowed_eq_true_iff (v : EnumValue PortNum) :
    relay_port_allowed v = true ↔
      (v = .Known .RoutingApp ∨ v = .Known .TextMessageApp ∨ v = .Known .NodeinfoApp ∨
       v = .Known .PositionApp ∨ v = .Known .TelemetryApp) := by
  cases v with
  | Known pn => cases pn <;> simp [relay_port_allowed]
  | Unknown i => simp [relay_port_allowed]

/-- A sample well-formed foreign packet used to instantiate universally quantified
theorems at concrete inputs. -/
def samplePacket (src dst pid hs hl : Nat) (port : EnumValue PortNum) : DecodedPacket :=
  { header :=
      { destination := dst
        source := src
        packet_id := pid
        flags := { hop_limit := hl, hop_start := hs, want_ack := false, via_mqtt := false }
        channel_hash := 8
        next_hop := 0
        relay_node := 0 }
    rssi := -90
    snr := 5
    data := { portnum := port, want_response := false } }

/-- C1: `should_relay` together with `validate_packet` denies with the first
matching rule, in order: zero `packet_id`, `hop_start > 7`, `hop_limit >
hop_start`, reserved source (each an invalid-packet error); then own source,
duplicate id (counted in `loop_prevention_drops`), exhausted `hop_limit`,
destination reached, and a port outside the five relayable application ports
(each a quiet refusal); every other packet is admitted, and every admitted packet
satisfies `packet_id ≠ 0` and `hop_limit ≤ hop_start ≤ 7`. -/
theorem C1_admission_order (st : RelayState) (p : DecodedPacket) :
    (p.header.packet_id = 0 →
      (st.should_relay p).2 = .error (.InvalidPacket msgPacketIdZero)) ∧
    (p.header.packet_id ≠ 0 → 7 < p.header.flags.hop_start →
      (st.should_relay p).2 = .error (.InvalidPacket msgHopStartHigh)) ∧
    (p.header.packet_id ≠ 0 → p.header.flags.hop_start ≤ 7 →
      p.header.flags.hop_start < p.header.flags.hop_limit →
      (st.should_relay p).2 = .error (.InvalidPacket msgHopLimitExceeds)) ∧
    (p.header.packet_id ≠ 0 → p.header.flags.hop_start ≤ 7 →
      p.header.flags.hop_limit ≤ p.header.flags.hop_start →
      (p.header.source = 0 ∨ p.header.source = 0xFFFFFFFF) →
      (st.should_relay p).2 = .error (.InvalidPacket msgInvalidSource)) ∧
    (validate_packet p = .ok () → p.header.source = st.our_node_id →
      (st.should_relay p).2 = .ok false) ∧
    (validate_packet p = .ok () → p.header.source ≠ st.our_node_id →
      p.header.packet_id ∈ st.recent_packets →
      (st.should_relay p).2 = .ok false ∧
      (st.should_relay p).1.stats.loop_prevention_drops =
        st.stats.loop_prevention_drops + 1) ∧
    (validate_packet p = .ok () → p.header.source ≠ st.our_node_id →
      p.header.packet_id ∉ st.recent_packets → p.header.flags.hop_limit = 0 →
      (st.should_relay p).2 = .ok false) ∧
    (validate_packet p = .ok () → p.header.source ≠ st.our_node_id →
      p.header.packet_id ∉ st.recent_packets → p.header.flags.hop_limit ≠ 0 →
      p.header.destination = st.our_node_id →
      (st.should_relay p).2 = .ok false) ∧
    (validate_packet p = .ok () → p.header.source ≠ st.our_node_id →
      p.header.packet_id ∉ st.recent_packets → p.header.flags.hop_limit ≠ 0 →
      p.header.destination ≠ st.our_node_id →
      ¬(p.port_num = .Known .RoutingApp ∨ p.port_num = .Known .TextMessageApp ∨
        p.port_num = .Known .NodeinfoApp ∨ p.port_num = .Known .PositionApp ∨
        p.port_num = .Known .TelemetryApp) →
      (st.should_relay p).2 = .ok false) ∧
    (validate_packet p = .ok () → p.header.source ≠ st.our_node_id →
      p.header.packet_id ∉ st.recent_packets → p.header.flags.hop_limit ≠ 0 →
      p.header.destination ≠ st.our_node_id →
      (p.port_num = .Known .RoutingApp ∨ p.port_num = .Known .TextMessageApp ∨
       p.port_num = .Known .NodeinfoApp ∨ p.port_num = .Known .PositionApp ∨
       p.port_num = .Known .TelemetryApp) →
      (st.should_relay p).2 = .ok true) ∧
    ((st.should_relay p).2 = .ok true →
      p.header.packet_id ≠ 0 ∧
      p.header.flags.hop_limit ≤ p.header.flags.hop_start ∧
      p.header.flags.hop_start ≤ 7) := by
  have hmem : ∀ (l : List Nat) (x : Nat), x ∈ l →
      l.any (fun id => id = x) = true := by
    intro l x hx
    exact List.any_eq_true.mpr ⟨x, hx, by simp⟩
  have hnmem : ∀ (l : List Nat) (x : Nat), x ∉ l →
      l.any (fun id => id = x) = false := by
    intro l x hx
    rw [List.any_eq_false]
    intro a ha
    simp only [decide_eq_true_eq]
    intro hax
    exact hx (hax ▸ ha)
  refine ⟨?_, ?_, ?_, ?_, ?_, ?_, ?_, ?_, ?_, ?_, ?_⟩
  · intro h1
    rw [should_relay_snd]
    unfold relay_decision validate_packet
    simp [h1]
  · intro h1 h2
    rw [should_relay_snd]
    unfold relay_decision validate_packet
    simp [h1, h2]
  · intro h1 h2 h3
    have h2' : ¬ (7 < p.header.flags.hop_start) := by omega
    rw [should_relay_snd]
    unfold relay_decision validate_packet
    simp [h1, h2', h3]
  · intro h1 h2 h3 h4
    have h2' : ¬ (7 < p.header.flags.hop_start) := by omega
    have h3' : ¬ (p.header.flags.hop_start < p.header.flags.hop_limit) := by omega
    rw [should_relay_snd]
    unfold relay_decision validate_packet
    rw [if_neg h1, if_neg h2', if_neg h3', if_pos h4]
  · intro hv hsrc
    rw [should_relay_snd]
    unfold relay_decision
    rw [hv]
    simp [hsrc]
  · intro hv hsrc hrec
    constructor
    · rw [should_relay_snd]
      unfold relay_decision
      rw [hv]
      simp [hsrc, hmem _ _ hrec]
    · unfold RelayState.should_relay
      rw [hv]
      dsimp only
      simp [RelayState.is_recent_packet, hsrc, hmem _ _ hrec]
  · intro hv hsrc hrec hhl
    rw [should_relay_snd]
    unfold relay_decision
    rw [hv]
    simp [hsrc, hnmem _ _ hrec, hhl]
  · intro hv hsrc hrec hhl hdst
    rw [should_relay_snd]
    unfold relay_decision
    rw [hv]
    simp [hsrc, hnmem _ _ hrec, hhl, hdst]
  · intro hv hsrc hrec hhl hdst hport
    rw [should_relay_snd]
    unfold relay_decision
    rw [hv]
    have hpa : relay_port_allowed p.port_num = false := by
      rcases hb : relay_port_allowed p.port_num with _ | _
      · rfl
      · exact absurd ((relay_port_allowed_eq_true_iff _).mp hb) hport
    simp [hsrc, hnmem _ _ hrec, hhl, hdst, hpa]
  · intro hv hsrc hrec hhl hdst hport
    rw [should_relay_snd]
    unfold relay_decision
    rw [hv]
    simp [hsrc, hnmem _ _ hrec, hhl, hdst,
      (relay_port_allowed_eq_true_iff _).mpr hport]
  · intro h
    rw [should_relay_snd] at h
    unfold relay_decision at h
    cases hv : validate_packet p with
    | error e => rw [hv] at h; simp at h
    | ok u =>
      cases u
      have hvalid := (validate_packet_ok_iff p).mp hv
      exact ⟨hvalid.1, hvalid.2.2.1, hvalid.2.1⟩

/-- Witness for C1: a concrete telemetry packet from a foreign node passes every
admission rule on a fresh relay state. -/
theorem C1_witness :
    ((RelayState.new 0).should_relay
      (samplePacket 0x11223344 0xFFFFFFFF 7 3 3 (.Known .TelemetryApp))).2 =
      .ok true := by
  have h := C1_admission_order (RelayState.new 0)
    (samplePacket 0x11223344 0xFFFFFFFF 7 3 3 (.Known .TelemetryApp))
  exact h.2.2.2.2.2.2.2.2.2.1 (by rfl) (by decide) (by simp [RelayState.new])
    (by decide) (by decide) (by simp [samplePacket, DecodedPacket.port_num])

/-! Lemmas about `handle_transmitted_packet`. -/

theorem handle_transmitted_present_step (st : RelayState) (now id : Nat)
    (pd : PendingPacket) (h : mapLookup st.pending_packets id = some pd)
    (hlt : pd.retry_count < pd.max_retransmissions) :
    mapLookup (st.handle_transmitted_packet now id).pending_packets id =
      some { pd with retry_count := pd.retry_count + 1,
                     next_tx_time := now + retxInterval (pd.retry_count + 1) } ∧
    (st.handle_transmitted_packet now id).pending_packets.map Prod.fst =
      st.pending_packets.map Prod.fst := by
  unfold RelayState.handle_transmitted_packet
  rw [h]
  dsimp only
  rw [if_pos (by simp [PendingPacket.has_retransmissions_left, hlt])]
  constructor
  · rw [pendingUpdate_lookup_self, h]
    rfl
  · dsimp only
    exact pendingUpdate_keys _ _ _

theorem handle_transmitted_remove_step (st : RelayState) (now id : Nat)
    (pd : PendingPacket)
    (hnd : (st.pending_packets.map Prod.fst).Nodup)
    (h : mapLookup st.pending_packets id = some pd)
    (hge : pd.max_retransmissions ≤ pd.retry_count) :
    mapLookup (st.handle_transmitted_packet now id).pending_packets id = none := by
  unfold RelayState.handle_transmitted_packet
  rw [h]
  dsimp only
  rw [if_neg (by simp [PendingPacket.has_retransmissions_left]; omega)]
  exact swapRemove_lookup_self _ _ pd hnd h

theorem transmitN_present (st : RelayState) (id : Nat) (pd : PendingPacket)
    (nows : List Nat)
    (h : mapLookup st.pending_packets id = some pd)
    (hle : pd.retry_count + nows.length ≤ pd.max_retransmissions) :
    ∃ pd', mapLookup (transmitN st id nows).pending_packets id = some pd' ∧
      pd'.retry_count = pd.retry_count + nows.length ∧
      pd'.max_retransmissions = pd.max_retransmissions ∧
      (transmitN st id nows).pending_packets.map Prod.fst =
        st.pending_packets.map Prod.fst := by
  induction nows generalizing st pd with
  | nil => exact ⟨pd, h, by simp, rfl, rfl⟩
  | cons now rest ih =>
    have hlt : pd.retry_count < pd.max_retransmissions := by
      simp only [List.length_cons] at hle
      omega
    obtain ⟨h1, hkeys⟩ := handle_transmitted_present_step st now id pd h hlt
    obtain ⟨pd', h2, h3, h4, h5⟩ := ih (st.handle_transmitted_packet now id) _ h1
      (by simp only [List.length_cons] at hle; simp; omega)
    have hstep : transmitN st id (now :: rest) =
        transmitN (st.handle_transmitted_packet now id) id rest := rfl
    rw [hstep, List.length_cons]
    refine ⟨pd', h2, ?_, by simpa using h4, by rw [h5, hkeys]⟩
    simp at h3
    omega

theorem transmitN_complete (st : RelayState) (id : Nat) (pd : PendingPacket)
    (nows : List Nat)
    (hnd : (st.pending_packets.map Prod.fst).Nodup)
    (h : mapLookup st.pending_packets id = some pd) (h0 : pd.retry_count = 0)
    (hlen : nows.length = pd.max_retransmissions + 1) :
    mapLookup (transmitN st id nows).pending_packets id = none := by
  rcases List.eq_nil_or_concat' nows with rfl | ⟨ns, last, rfl⟩
  · simp at hlen
  · have hlen' : ns.length = pd.max_retransmissions := by
      simp only [List.length_append, List.length_cons, List.length_nil] at hlen
      omega
    obtain ⟨pd', h2, h3, h4, h5⟩ := transmitN_present st id pd ns h (by omega)
    have hsplit : transmitN st id (ns ++ [last]) =
        (transmitN st id ns).handle_transmitted_packet last id := by
      simp [transmitN, List.foldl_append]
    rw [hsplit]
    refine handle_transmitted_remove_step _ _ _ pd' ?_ h2 (by omega)
    rw [h5]
    exact hnd

theorem retxInterval_succ_getD (rc : Nat) :
    retxInterval (rc + 1) =
      RETX_INTERVALS.getD (min rc (RETX_INTERVALS.length - 1)) 0 := by
  unfold retxInterval RETX_INTERVALS
  by_cases h5 : rc + 1 ≤ 5
  · rw [if_pos (by simpa using h5)]
    congr 1
    simp
    omega
  · rw [if_neg (by simpa using h5)]
    congr 1
    simp
    omega

/-- The pending entry expected after a successful transmission with retries left:
`retry_count` incremented, next attempt `RETX_INTERVALS[retry_count - 1]`
milliseconds later with the index clamped to the last entry. -/
def scheduledRetry (pd : PendingPacket) (now : Nat) : PendingPacket :=
  { pd with
    retry_count := pd.retry_count + 1
    next_tx_time :=
      now + RETX_INTERVALS.getD (min pd.retry_count (RETX_INTERVALS.length - 1)) 0 }

/-- C2: `get_max_retransmissions` returns 0 without `wants_ack`, else 4 for
routing, 2 for text, 3 otherwise; each successful transmission of a pending
packet with retransmissions left increments `retry_count` and schedules the next
attempt `RETX_INTERVALS[retry_count - 1]` (index clamped to the last entry)
milliseconds later, the intervals being 5000, 15000, 30000, 60000, 120000; a
pending packet whose `retry_count` has reached `max_retransmissions` is removed
after transmission, so a packet queued with `retry_count = 0` survives exactly
`max_retransmissions` further transmissions and disappears on the
`max_retransmissions + 1`-st. -/
theorem C2_retry_schedule :
    (∀ p : DecodedPacket,
      get_max_retransmissions p false = 0 ∧
      (p.port_num = .Known .RoutingApp → get_max_retransmissions p true = 4) ∧
      (p.port_num = .Known .TextMessageApp → get_max_retransmissions p true = 2) ∧
      (p.port_num ≠ .Known .RoutingApp → p.port_num ≠ .Known .TextMessageApp →
        get_max_retransmissions p true = 3)) ∧
    RETX_INTERVALS = [5000, 15000, 30000, 60000, 120000] ∧
    (∀ (st : RelayState) (now id : Nat) (pd : PendingPacket),
      mapLookup st.pending_packets id = some pd →
      pd.retry_count < pd.max_retransmissions →
      mapLookup (st.handle_transmitted_packet now id).pending_packets id =
        some (scheduledRetry pd now)) ∧
    (∀ (st : RelayState) (now id : Nat) (pd : PendingPacket),
      (st.pending_packets.map Prod.fst).Nodup →
      mapLookup st.pending_packets id = some pd →
      pd.max_retransmissions ≤ pd.retry_count →
      mapLookup (st.handle_transmitted_packet now id).pending_packets id = none) ∧
    (∀ (st : RelayState) (id : Nat) (pd : PendingPacket) (nows : List Nat),
      (st.pending_packets.map Prod.fst).Nodup →
      mapLookup st.pending_packets id = some pd → pd.retry_count = 0 →
      (nows.length ≤ pd.max_retransmissions →
        ∃ pd', mapLookup (transmitN st id nows).pending_packets id = some pd' ∧
          pd'.retry_count = nows.length) ∧
      (nows.length = pd.max_retransmissions + 1 →
        mapLookup (transmitN st id nows).pending_packets id = none)) := by
  refine ⟨?_, rfl, ?_, ?_, ?_⟩
  · intro p
    refine ⟨rfl, ?_, ?_, ?_⟩
    · intro hp
      simp [get_max_retransmissions, hp, NUM_ACK_RETX]
    · intro hp
      simp [get_max_retransmissions, hp, NUM_TEXT_RETX]
    · intro h1 h2
      cases hp : p.port_num with
      | Known pn =>
        cases pn <;> simp_all [get_max_retransmissions, NUM_RELIABLE_RETX]
      | Unknown i =>
        simp [get_max_retransmissions, hp, NUM_RELIABLE_RETX]
  · intro st now id pd h hlt
    unfold scheduledRetry
    rw [← retxInterval_succ_getD]
    exact (handle_transmitted_present_step st now id pd h hlt).1
  · exact fun st now id pd hnd h hge =>
      handle_transmitted_remove_step st now id pd hnd h hge
  · intro st id pd nows hnd h h0
    constructor
    · intro hle
      obtain ⟨pd', h2, h3, _, _⟩ := transmitN_present st id pd nows h (by omega)
      exact ⟨pd', h2, by omega⟩
    · intro hlen
      exact transmitN_complete st id pd nows hnd h h0 hlen

/-- A concrete pending entry used by witnesses. -/
def samplePending (pkt : DecodedPacket) (next maxr rc busy : Nat) : PendingPacket :=
  { packet := pkt
    queued_at := 0
    next_tx_time := next
    max_retransmissions := maxr
    retry_count := rc
    channel_busy_count := busy
    wants_ack := true
    priority := 120 }

/-- A concrete pending routing packet (id 42, four retransmissions allowed). -/
def pendingC2 : PendingPacket :=
  samplePending (samplePacket 5 6 42 3 3 (.Known .RoutingApp)) 100 4 0 0

/-- A concrete relay state holding only `pendingC2`. -/
def stateC2 : RelayState :=
  { RelayState.new 0 with pending_packets := [(42, pendingC2)] }

/-- Witness for C2: the single pending packet of `stateC2` survives four further
transmissions and is removed by the fifth. -/
theorem C2_witness :
    mapLookup (transmitN stateC2 42 [100, 5100, 20100, 50100, 110100]).pending_packets
      42 = none := by
  obtain ⟨-, -, -, -, he⟩ := C2_retry_schedule
  have h := he stateC2 42 pendingC2 [100, 5100, 20100, 50100, 110100]
    (by decide) (by rfl) (by rfl)
  exact h.2 (by rfl)

theorem should_relay_own_source (st : RelayState) (p : DecodedPacket)
    (hsrc : p.header.source = st.our_node_id) :
    (st.should_relay p).2 ≠ .ok true := by
  rw [should_relay_snd]
  unfold relay_decision
  cases hv : validate_packet p with
  | error e => simp
  | ok u => simp [hsrc]

/-- C3: on an inbound packet whose source is our node id, the implicit-ACK
handler removes the matching pending entry (when any) and increments
`implicit_acks`, and leaves the state unchanged otherwise; the admission check
never returns true for such a packet and does not touch the pending queue, so in
the receive step an own packet is never queued — the pending queue and
`implicit_acks` after the step are exactly those left by the implicit-ACK
handler, which runs first. -/
theorem C3_implicit_ack (st : RelayState) (p : DecodedPacket) (now delay_ms : Nat) :
    (∀ pd : PendingPacket, p.header.source = st.our_node_id →
      (st.pending_packets.map Prod.fst).Nodup →
      mapLookup st.pending_packets p.header.packet_id = some pd →
      mapLookup (st.handle_implicit_ack p).pending_packets p.header.packet_id = none ∧
      (st.handle_implicit_ack p).stats.implicit_acks = st.stats.implicit_acks + 1 ∧
      ((p.header.packet_id, pd) :: (st.handle_implicit_ack p).pending_packets).Perm
        st.pending_packets) ∧
    (p.header.source = st.our_node_id →
      mapLookup st.pending_packets p.header.packet_id = none →
      st.handle_implicit_ack p = st) ∧
    (p.header.source ≠ st.our_node_id → st.handle_implicit_ack p = st) ∧
    (p.header.source = st.our_node_id →
      (st.should_relay p).2 ≠ .ok true ∧
      (validate_packet p = .ok () → (st.should_relay p).2 = .ok false) ∧
      (st.should_relay p).1.pending_packets = st.pending_packets) ∧
    (p.header.source = st.our_node_id →
      (relay_receive_step st now delay_ms p).pending_packets =
        (st.handle_implicit_ack p).pending_packets ∧
      (relay_receive_step st now delay_ms p).stats.implicit_acks =
        (st.handle_implicit_ack p).stats.implicit_acks) := by
  refine ⟨?_, ?_, ?_, ?_, ?_⟩
  · intro pd hsrc hnd hpd
    unfold RelayState.handle_implicit_ack
    rw [if_pos hsrc, if_pos (by rw [hpd]; rfl)]
    dsimp only
    exact ⟨swapRemove_lookup_self _ _ pd hnd hpd, rfl, swapRemove_perm _ _ pd hpd⟩
  · intro hsrc hnone
    unfold RelayState.handle_implicit_ack
    rw [if_pos hsrc, if_neg (by rw [hnone]; simp)]
  · intro hsrc
    unfold RelayState.handle_implicit_ack
    rw [if_neg hsrc]
  · intro hsrc
    refine ⟨should_relay_own_source st p hsrc, ?_, (should_relay_fst_fields st p).1⟩
    intro hv
    rw [should_relay_snd]
    unfold relay_decision
    rw [hv]
    simp [hsrc]
  · intro hsrc
    have hour := (handle_implicit_ack_fields st p).1
    have hsrc1 : p.header.source = (st.handle_implicit_ack p).our_node_id := by
      rw [hour]; exact hsrc
    have hne := should_relay_own_source (st.handle_implicit_ack p) p hsrc1
    have hf := should_relay_fst_fields (st.handle_implicit_ack p) p
    unfold relay_receive_step
    dsimp only
    cases hc : ((st.handle_implicit_ack p).should_relay p).2 with
    | error e => exact ⟨hf.1, hf.2.2.2⟩
    | ok b =>
      cases b with
      | false => exact ⟨hf.1, hf.2.2.2⟩
      | true => exact absurd hc hne

/-- A concrete echo of the pending packet of `stateC2`, heard back from our own
node id. -/
def ackPacket : DecodedPacket :=
  samplePacket 0xDEADBEEF 6 42 3 3 (.Known .RoutingApp)

/-- Witness for C3: hearing packet 42 echoed with our own source removes the
pending entry of `stateC2` and increments `implicit_acks`. -/
theorem C3_witness :
    mapLookup (stateC2.handle_implicit_ack ackPacket).pending_packets 42 = none ∧
    (stateC2.handle_implicit_ack ackPacket).stats.implicit_acks =
      stateC2.stats.implicit_acks + 1 := by
  have h := (C3_implicit_ack stateC2 ackPacket 0 0).1 pendingC2
    (by rfl) (by decide) (by rfl)
  exact ⟨h.1, h.2.1⟩

/-! The duty-cycle gate: behaviour while the elapsed milliseconds fit in `u32`,
and the truncation defect at `2 ^ 32` elapsed milliseconds. -/

theorem can_transmit_within_u32 (t : DutyCycleTracker) (now est : Nat)
    (hp : t.period_length_secs = 3600) (hu : t.utilization_limit = 10)
    (_hle : t.period_start ≤ now) (hlt : now - t.period_start < U32_MOD)
    (htot : t.total_airtime_ms + est < U32_MOD) :
    t.can_transmit now est = true ↔
      (3600 * 1000 ≤ now - t.period_start ∨
       (t.total_airtime_ms + est) * 100 / (3600 * 1000) ≤ 10) := by
  unfold DutyCycleTracker.can_transmit
  rw [hp, hu]
  dsimp only
  rw [Nat.mod_eq_of_lt hlt]
  by_cases hwin : 3600 * 1000 ≤ now - t.period_start
  · rw [if_pos (by unfold U32_MOD; omega)]
    simp [hwin]
  · rw [if_neg (by unfold U32_MOD; omega)]
    have h1 : min (t.total_airtime_ms + est) (U32_MOD - 1) =
        t.total_airtime_ms + est := by unfold U32_MOD at htot ⊢; omega
    have h2 : min (3600 * 1000) (U32_MOD - 1) = 3600 * 1000 := by
      unfold U32_MOD; omega
    rw [h1, h2]
    simp [hwin]

theorem record_transmission_within_u32 (t : DutyCycleTracker) (now air : Nat)
    (hp : t.period_length_secs = 3600)
    (hlt : now - t.period_start < U32_MOD) :
    (now - t.period_start < 3600 * 1000 →
      t.record_transmission now air =
        { t with total_airtime_ms := t.total_airtime_ms + air }) ∧
    (3600 * 1000 ≤ now - t.period_start →
      t.record_transmission now air =
        { t with total_airtime_ms := air, period_start := now }) := by
  unfold DutyCycleTracker.record_transmission
  rw [hp]
  dsimp only
  rw [Nat.mod_eq_of_lt hlt]
  constructor
  · intro hwin
    rw [if_neg (by unfold U32_MOD; omega)]
  · intro hwin
    rw [if_pos (by unfold U32_MOD; omega)]

/-- C4: exhibit of the `as u32` truncation defect of the duty-cycle accountant.
With 396 seconds of airtime recorded, a period start at instant 0 and the
current instant `2 ^ 32` milliseconds later, the hour window has genuinely
elapsed (so by the specified behaviour the gate must admit and the next recorded
transmission must reset the accumulator), yet `can_transmit` computes a
truncated elapsed time of 0 ms, denies the 250 ms candidate at 11 percent
utilization, and `record_transmission` accumulates instead of resetting.
Within the `u32` range the specified behaviour is proved as
`can_transmit_within_u32` and `record_transmission_within_u32`. -/
theorem C4_duty_cycle_truncation_bug :
    3600 * 1000 ≤ (4294967296 : Nat) -
      (DutyCycleTracker.mk 396000 0 10 3600).period_start ∧
    (DutyCycleTracker.mk 396000 0 10 3600).can_transmit 4294967296 250 = false ∧
    ((DutyCycleTracker.mk 396000 0 10 3600).record_transmission 4294967296 250).total_airtime_ms
      = 396250 ∧
    ((DutyCycleTracker.mk 396000 0 10 3600).record_transmission 4294967296 250).period_start
      = 0 := by
  refine ⟨by decide, by decide, by decide, by decide⟩

/-! Channel-busy backoff. -/

/-- The pending entry expected after a channel-busy report that does not exhaust
the retry budget: busy count incremented, next attempt
`100 ms × 2 ^ channel_busy_count` later. -/
def busyBackoff (pd : PendingPacket) (now : Nat) : PendingPacket :=
  { pd with
    channel_busy_count := pd.channel_busy_count + 1
    next_tx_time :=
      now + CHANNEL_BUSY_BASE_DELAY_MS * 2 ^ (pd.channel_busy_count + 1) }

/-- C5: a channel-busy report for a scheduled pending packet increments its busy
count and `channel_busy_events`; while the incremented count is at most 8 the
packet is rescheduled `100 × 2 ^ count` ms later (successive backoffs 200, 400,
800, 1600, 3200, 6400, 12800, 25600 ms), and once the count exceeds 8 — the
ninth consecutive report — the packet is removed and `packets_dropped` is
incremented. -/
theorem C5_channel_busy_backoff (st : RelayState) (now id : Nat)
    (pd : PendingPacket) (h : mapLookup st.pending_packets id = some pd) :
    (st.handle_channel_busy now id).stats.channel_busy_events =
      st.stats.channel_busy_events + 1 ∧
    (pd.channel_busy_count + 1 ≤ 8 →
      mapLookup (st.handle_channel_busy now id).pending_packets id =
        some (busyBackoff pd now) ∧
      (st.handle_channel_busy now id).stats.packets_dropped =
        st.stats.packets_dropped) ∧
    (8 < pd.channel_busy_count + 1 →
      (st.pending_packets.map Prod.fst).Nodup →
      mapLookup (st.handle_channel_busy now id).pending_packets id = none ∧
      (st.handle_channel_busy now id).stats.packets_dropped =
        st.stats.packets_dropped + 1) ∧
    ((List.range 8).map fun k => 100 * 2 ^ (k + 1)) =
      [200, 400, 800, 1600, 3200, 6400, 12800, 25600] := by
  refine ⟨?_, ?_, ?_, by decide⟩
  · unfold RelayState.handle_channel_busy
    rw [h]
    dsimp only
    split_ifs <;> rfl
  · intro hle
    unfold RelayState.handle_channel_busy
    rw [h]
    dsimp only
    rw [if_pos (show pd.channel_busy_count + 1 ≤ MAX_CHANNEL_BUSY_RETRIES by
      unfold MAX_CHANNEL_BUSY_RETRIES; omega)]
    refine ⟨?_, rfl⟩
    dsimp only
    rw [pendingUpdate_lookup_self, h]
    rfl
  · intro hgt hnd
    unfold RelayState.handle_channel_busy
    rw [h]
    dsimp only
    rw [if_neg (show ¬ pd.channel_busy_count + 1 ≤ MAX_CHANNEL_BUSY_RETRIES by
      unfold MAX_CHANNEL_BUSY_RETRIES; omega)]
    exact ⟨swapRemove_lookup_self _ _ pd hnd h, rfl⟩

/-- Witness for C5: the first busy report for the pending packet of `stateC2`
reschedules it 200 ms later and counts one busy event. -/
theorem C5_witness :
    mapLookup (stateC2.handle_channel_busy 0 42).pending_packets 42 =
      some (busyBackoff pendingC2 0) ∧
    (stateC2.handle_channel_busy 0 42).stats.channel_busy_events =
      stateC2.stats.channel_busy_events + 1 := by
  have h := C5_channel_busy_backoff stateC2 0 42 pendingC2 (by rfl)
  exact ⟨(h.2.1 (by decide)).1, h.1⟩

/-! The transmit-candidate scan. -/

theorem findReady_none_iff (now : Nat) (l : List (Nat × PendingPacket)) :
    findReady now l = none ↔ ∀ kv ∈ l, now < kv.2.next_tx_time := by
  induction l with
  | nil => simp [findReady]
  | cons kv rest ih =>
    by_cases hr : kv.2.next_tx_time ≤ now
    · simp [findReady, hr]
    · simp [findReady, hr, ih]
      intro
      omega

theorem findReady_some_first (now : Nat) (l : List (Nat × PendingPacket))
    (id : Nat) (pkt : DecodedPacket) (h : findReady now l = some (id, pkt)) :
    ∃ l1 pd l2, l = l1 ++ (id, pd) :: l2 ∧ pd.packet = pkt ∧
      pd.next_tx_time ≤ now ∧ ∀ kv ∈ l1, now < kv.2.next_tx_time := by
  induction l with
  | nil => simp [findReady] at h
  | cons kv rest ih =>
    by_cases hr : kv.2.next_tx_time ≤ now
    · rw [findReady, if_pos hr] at h
      obtain ⟨h1, h2⟩ := Prod.mk.injEq _ _ _ _ ▸ Option.some.injEq _ _ ▸ h
      refine ⟨[], kv.2, rest, ?_, h2, hr, by simp⟩
      rw [← h1]
      rfl
    · rw [findReady, if_neg hr] at h
      obtain ⟨l1, pd, l2, hsplit, hpkt, hready, hbefore⟩ := ih h
      refine ⟨kv :: l1, pd, l2, by rw [hsplit]; rfl, hpkt, hready, ?_⟩
      intro x hx
      rcases List.mem_cons.mp hx with rfl | hx2
      · omega
      · exact hbefore x hx2

/-- C7 (amended): `get_next_ready_packet` returns the first entry in the pending
map iteration order whose `next_tx_time` has arrived — some ready packet is
returned exactly when one exists, but it is the earliest in insertion order, not
the one with the smallest `next_tx_time`. -/
theorem C7_first_ready_in_order (st : RelayState) (now : Nat) :
    (st.get_next_ready_packet now = none ↔
      ∀ kv ∈ st.pending_packets, now < kv.2.next_tx_time) ∧
    (∀ (id : Nat) (pkt : DecodedPacket),
      st.get_next_ready_packet now = some (id, pkt) →
      ∃ l1 pd l2, st.pending_packets = l1 ++ (id, pd) :: l2 ∧
        pd.packet = pkt ∧ pd.next_tx_time ≤ now ∧
        ∀ kv ∈ l1, now < kv.2.next_tx_time) := by
  constructor
  · exact findReady_none_iff now st.pending_packets
  · intro id pkt h
    exact findReady_some_first now st.pending_packets id pkt h

/-- A pending text packet with id 1, first in insertion order, ready at 1000 ms. -/
def pendingC7a : PendingPacket :=
  { samplePending (samplePacket 21 6 1 3 3 (.Known .TextMessageApp)) 1000 0 0 0 with
    wants_ack := false, priority := 64 }

/-- A pending text packet with id 2, second in insertion order, ready at 500 ms. -/
def pendingC7b : PendingPacket :=
  { samplePending (samplePacket 22 6 2 3 3 (.Known .TextMessageApp)) 500 0 0 0 with
    wants_ack := false, priority := 64 }

/-- A relay state whose first-inserted pending packet has the larger
`next_tx_time` of the two. -/
def stateC7 : RelayState :=
  { RelayState.new 0 with pending_packets := [(1, pendingC7a), (2, pendingC7b)] }

/-- Counterexample for C7 as stated: at instant 1000 both pending packets of
`stateC7` are ready, packet 2 has the strictly smallest `next_tx_time` (500 <
1000), yet the scan selects packet 1, the first in map iteration order. -/
theorem C7_counterexample :
    stateC7.get_next_ready_packet 1000 = some (1, pendingC7a.packet) ∧
    mapLookup stateC7.pending_packets 2 = some pendingC7b ∧
    pendingC7b.next_tx_time ≤ 1000 ∧
    pendingC7b.next_tx_time < pendingC7a.next_tx_time := by
  refine ⟨by decide, by decide, by decide, by decide⟩

/-- Witness for C7 (amended): the selection made in `stateC7` at instant 1000 is
the first ready entry in iteration order. -/
theorem C7_witness :
    ∃ l1 pd l2, stateC7.pending_packets = l1 ++ (1, pd) :: l2 ∧
      pd.packet = pendingC7a.packet ∧ pd.next_tx_time ≤ 1000 ∧
      ∀ kv ∈ l1, 1000 < kv.2.next_tx_time :=
  (C7_first_ready_in_order stateC7 1000).2 1 pendingC7a.packet (by decide)

/-! The duty-cycle gate scenario. -/

/-- C8 (amended): with 358 seconds of airtime inside the current window a 250 ms
candidate is admitted by the gate (9.95 percent, and the integer utilization 9 is
at most the limit 10); deferral — `duty_cycle_blocks` incremented, pending queue
untouched — happens only when the gate refuses, e.g. with 396 seconds used. -/
theorem C8_duty_gate (s now : Nat) (st : RelayState) :
    (s ≤ now → now - s < 3600 * 1000 →
      (DutyCycleTracker.mk 358000 s 10 3600).can_transmit now 250 = true) ∧
    (s ≤ now → now - s < 3600 * 1000 →
      (DutyCycleTracker.mk 396000 s 10 3600).can_transmit now 250 = false) ∧
    (st.duty_cycle.can_transmit now 250 = false →
      (∃ r, st.get_next_ready_packet now = some r) →
      (relay_duty_gate_step st now).1.stats.duty_cycle_blocks =
        st.stats.duty_cycle_blocks + 1 ∧
      (relay_duty_gate_step st now).1.pending_packets = st.pending_packets ∧
      (relay_duty_gate_step st now).2 = false) := by
  refine ⟨?_, ?_, ?_⟩
  · intro hle hwin
    unfold DutyCycleTracker.can_transmit
    dsimp only
    rw [Nat.mod_eq_of_lt (show now - s < U32_MOD by unfold U32_MOD; omega)]
    rw [if_neg (by unfold U32_MOD; omega)]
    decide
  · intro hle hwin
    unfold DutyCycleTracker.can_transmit
    dsimp only
    rw [Nat.mod_eq_of_lt (show now - s < U32_MOD by unfold U32_MOD; omega)]
    rw [if_neg (by unfold U32_MOD; omega)]
    decide
  · intro hcan hready
    obtain ⟨r, hr⟩ := hready
    unfold relay_duty_gate_step
    rw [hr]
    dsimp only
    rw [show calculate_packet_airtime r.2 = 250 from rfl, hcan]
    exact ⟨rfl, rfl, rfl⟩

/-- A pending text packet with id 7, ready at 500 ms. -/
def pendingC8 : PendingPacket :=
  { samplePending (samplePacket 23 6 7 3 3 (.Known .TextMessageApp)) 500 0 0 0 with
    wants_ack := false, priority := 64 }

/-- A relay state with a ready pending packet and 358 s of airtime recorded in
the current window. -/
def stateC8 : RelayState :=
  { RelayState.new 0 with
    pending_packets := [(7, pendingC8)]
    duty_cycle := ⟨358000, 0, 10, 3600⟩ }

/-- A relay state with a ready pending packet and 396 s of airtime recorded in
the current window. -/
def stateC8b : RelayState :=
  { RelayState.new 0 with
    pending_packets := [(7, pendingC8)]
    duty_cycle := ⟨396000, 0, 10, 3600⟩ }

/-- Counterexample for C8 as stated: at instant 1000, with 358 s of airtime used
in the current window, the 250 ms candidate is admitted — `can_transmit` returns
true and the gate step leaves `duty_cycle_blocks` untouched and proceeds — it is
not deferred. -/
theorem C8_counterexample :
    stateC8.duty_cycle.can_transmit 1000 250 = true ∧
    relay_duty_gate_step stateC8 1000 = (stateC8, true) := by
  refine ⟨by decide, by decide⟩

/-- Witness for C8 (amended): with 396 s used the same candidate is deferred,
incrementing `duty_cycle_blocks` and leaving the pending queue untouched. -/
theorem C8_witness :
    (relay_duty_gate_step stateC8b 1000).1.stats.duty_cycle_blocks =
      stateC8b.stats.duty_cycle_blocks + 1 ∧
    (relay_duty_gate_step stateC8b 1000).1.pending_packets =
      stateC8b.pending_packets ∧
    (relay_duty_gate_step stateC8b 1000).2 = false :=
  (C8_duty_gate 0 1000 stateC8b).2.2 (by decide) ⟨(7, pendingC8.packet), by decide⟩

/-! Queueing. -/

theorem add_recent_packet_pending (st : RelayState) (i : Nat) :
    (st.add_recent_packet i).pending_packets = st.pending_packets := rfl

theorem mapLookup_append_of_none (m : List (Nat × PendingPacket)) (k : Nat)
    (v : PendingPacket) (h : mapLookup m k = none) :
    mapLookup (m ++ [(k, v)]) k = some v := by
  induction m with
  | nil => simp [mapLookup]
  | cons kv rest ih =>
    by_cases hk : kv.1 = k
    · rw [mapLookup, if_pos hk] at h
      exact absurd h (by simp)
    · rw [mapLookup, if_neg hk] at h
      rw [List.cons_append, mapLookup, if_neg hk]
      exact ih h

theorem fnvIndexMapInsert_present (m : List (Nat × PendingPacket)) (cap k : Nat)
    (v w : PendingPacket) (h : mapLookup m k = some w) :
    fnvIndexMapInsert m cap k v = (pendingUpdate m k (fun _ => v), true) := by
  unfold fnvIndexMapInsert
  rw [h]
  rfl

theorem fnvIndexMapInsert_new (m : List (Nat × PendingPacket)) (cap k : Nat)
    (v : PendingPacket) (h : mapLookup m k = none) (hlen : m.length < cap) :
    fnvIndexMapInsert m cap k v = (m ++ [(k, v)], true) := by
  unfold fnvIndexMapInsert
  rw [h, if_neg (by simp), if_pos hlen]

theorem fnvIndexMapInsert_nofit (m : List (Nat × PendingPacket)) (cap k : Nat)
    (v : PendingPacket) (hnew : mapLookup m k = none)
    (hlen : ¬ m.length < cap) : fnvIndexMapInsert m cap k v = (m, false) := by
  unfold fnvIndexMapInsert
  rw [hnew, if_neg (by simp), if_neg hlen]

theorem fnvIndexMapInsert_full (m : List (Nat × PendingPacket)) (cap k : Nat)
    (v : PendingPacket) (hfull : m.length = cap)
    (hnew : mapLookup m k = none) : fnvIndexMapInsert m cap k v = (m, false) :=
  fnvIndexMapInsert_nofit m cap k v hnew (by omega)

/-- C9 (amended): calling `queue_packet` while the pending map holds its full 16
entries and the packet id is not already a key drops the newest packet:
`QueueFull` is returned, `packets_dropped` is incremented and nothing else in
the relay state changes — in particular the id is not marked recent, so the
admission decision for every packet, this one included, is exactly what it was
before the failed call. -/
theorem C9_queue_full (st : RelayState) (now delay_ms : Nat) (p : DecodedPacket)
    (wants_ack : Bool) (priority : Nat)
    (hfull : st.pending_packets.length = MAX_PENDING_PACKETS)
    (hnew : mapLookup st.pending_packets p.header.packet_id = none) :
    (st.queue_packet now delay_ms p wants_ack priority).2 = .error .QueueFull ∧
    (st.queue_packet now delay_ms p wants_ack priority).1 =
      { st with stats := { st.stats with
          packets_dropped := st.stats.packets_dropped + 1 } } ∧
    ∀ q : DecodedPacket,
      ((st.queue_packet now delay_ms p wants_ack priority).1.should_relay q).2 =
        (st.should_relay q).2 := by
  have hq : st.queue_packet now delay_ms p wants_ack priority =
      ({ st with stats := { st.stats with
          packets_dropped := st.stats.packets_dropped + 1 } },
       .error .QueueFull) := by
    unfold RelayState.queue_packet
    dsimp only
    rw [fnvIndexMapInsert_full _ _ _ _ hfull hnew]
    rfl
  refine ⟨by rw [hq], by rw [hq], ?_⟩
  intro q
  rw [hq, should_relay_snd, should_relay_snd]

/-- A filler pending entry used to saturate the queue. -/
def pendingFiller (i : Nat) : PendingPacket :=
  { samplePending (samplePacket 30 6 i 3 3 (.Known .TextMessageApp)) 1000000 0 0 0 with
    wants_ack := false, priority := 64 }

/-- A relay state whose pending map is full: 16 entries with ids 1..16. -/
def stateC9 : RelayState :=
  { RelayState.new 0 with
    pending_packets := (List.range 16).map fun i => (i + 1, pendingFiller (i + 1)) }

/-- A packet whose id 5 is already a key of the full map of `stateC9`. -/
def packetC9 : DecodedPacket := samplePacket 30 6 5 3 3 (.Known .TextMessageApp)

/-- A packet whose id 99 is not a key of the full map of `stateC9`. -/
def packetC9b : DecodedPacket := samplePacket 30 6 99 3 3 (.Known .TextMessageApp)

/-- Counterexample for C9 as stated: `queue_packet` is called while the pending
map (capacity 16) is full, yet because the id 5 of the packet is already a key the
insert replaces that entry and succeeds — no `QueueFull` error and no
`packets_dropped` increment. -/
theorem C9_counterexample :
    stateC9.pending_packets.length = 16 ∧
    mapLookup stateC9.pending_packets 5 = some (pendingFiller 5) ∧
    (stateC9.queue_packet 0 100 packetC9 false 64).2 = .ok () ∧
    (stateC9.queue_packet 0 100 packetC9 false 64).1.stats.packets_dropped =
      stateC9.stats.packets_dropped := by
  refine ⟨by decide, by decide, by rfl, by decide⟩

/-- Witness for C9 (amended): queueing a packet with fresh id 99 into the full
map of `stateC9` fails with `QueueFull` and increments `packets_dropped`. -/
theorem C9_witness :
    (stateC9.queue_packet 0 100 packetC9b false 64).2 = .error .QueueFull ∧
    (stateC9.queue_packet 0 100 packetC9b false 64).1.stats.packets_dropped =
      stateC9.stats.packets_dropped + 1 := by
  have h := C9_queue_full stateC9 0 100 packetC9b false 64 (by decide) (by decide)
  exact ⟨h.1, by rw [h.2.1]⟩

/-! The acknowledgment policy. -/

/-- The looked-up pending entry created by a successful `queue_packet` call. -/
theorem queue_packet_ok_lookup (st : RelayState) (now delay_ms : Nat)
    (p : DecodedPacket) (wa : Bool) (prio : Nat)
    (hok : (st.queue_packet now delay_ms p wa prio).2 = .ok ()) :
    mapLookup (st.queue_packet now delay_ms p wa prio).1.pending_packets
      p.header.packet_id = some
        { packet := p, queued_at := now, next_tx_time := now + delay_ms,
          max_retransmissions := get_max_retransmissions p wa, retry_count := 0,
          channel_busy_count := 0, wants_ack := wa, priority := prio } := by
  cases hml : mapLookup st.pending_packets p.header.packet_id with
  | some w =>
    have hpend : (st.queue_packet now delay_ms p wa prio).1.pending_packets =
        pendingUpdate st.pending_packets p.header.packet_id (fun _ =>
          { packet := p, queued_at := now, next_tx_time := now + delay_ms,
            max_retransmissions := get_max_retransmissions p wa, retry_count := 0,
            channel_busy_count := 0, wants_ack := wa, priority := prio }) := by
      unfold RelayState.queue_packet
      dsimp only
      rw [fnvIndexMapInsert_present _ MAX_PENDING_PACKETS _ _ w hml]
      rfl
    rw [hpend, pendingUpdate_lookup_self, hml]
    rfl
  | none =>
    by_cases hlen : st.pending_packets.length < MAX_PENDING_PACKETS
    · have hpend : (st.queue_packet now delay_ms p wa prio).1.pending_packets =
          st.pending_packets ++ [(p.header.packet_id,
            { packet := p, queued_at := now, next_tx_time := now + delay_ms,
              max_retransmissions := get_max_retransmissions p wa, retry_count := 0,
              channel_busy_count := 0, wants_ack := wa, priority := prio })] := by
        unfold RelayState.queue_packet
        dsimp only
        rw [fnvIndexMapInsert_new _ MAX_PENDING_PACKETS _ _ hml hlen]
        rfl
      rw [hpend]
      exact mapLookup_append_of_none _ _ _ hml
    · have herr : (st.queue_packet now delay_ms p wa prio).2 =
          .error RelayError.QueueFull := by
        unfold RelayState.queue_packet
        dsimp only
        rw [fnvIndexMapInsert_nofit _ MAX_PENDING_PACKETS _ _ hml hlen]
        rfl
      rw [herr] at hok
      simp at hok

/-- The given packet with its header `want_ack` bit and its payload
`want_response` field overwritten; used to state that the
acknowledgment policy ignores both. -/
def setAckFlags (p : DecodedPacket) (f wr : Bool) : DecodedPacket :=
  { p with
    header := { p.header with flags := { p.header.flags with want_ack := f } }
    data := { p.data with want_response := wr } }

/-- C10: `packet_wants_ack` is true exactly for port `RoutingApp` and is
insensitive to the header `want_ack` bit and the payload `want_response` field;
hence every packet queued through the task function `packet_wants_ack` with a
non-routing port gets `wants_ack = false` and `max_retransmissions = 0`, and a
pending entry with zero retransmissions is removed at its first successful
transmission without ever counting a retransmission. -/
theorem C10_ack_policy :
    (∀ p : DecodedPacket,
      (packet_wants_ack p = true ↔ p.port_num = .Known .RoutingApp)) ∧
    (∀ (p : DecodedPacket) (f wr : Bool),
      packet_wants_ack (setAckFlags p f wr) = packet_wants_ack p) ∧
    (∀ p : DecodedPacket, p.port_num ≠ .Known .RoutingApp →
      get_max_retransmissions p (packet_wants_ack p) = 0) ∧
    (∀ (st : RelayState) (now id : Nat) (pd : PendingPacket),
      (st.pending_packets.map Prod.fst).Nodup →
      mapLookup st.pending_packets id = some pd →
      pd.max_retransmissions = 0 →
      mapLookup (st.handle_transmitted_packet now id).pending_packets id = none ∧
      (st.handle_transmitted_packet now id).stats.retransmissions =
        st.stats.retransmissions) ∧
    (∀ (st : RelayState) (now delay_ms : Nat) (p : DecodedPacket) (priority : Nat),
      p.port_num ≠ .Known .RoutingApp →
      (st.queue_packet now delay_ms p (packet_wants_ack p) priority).2 = .ok () →
      ∃ pd, mapLookup
          (st.queue_packet now delay_ms p (packet_wants_ack p) priority).1.pending_packets
          p.header.packet_id = some pd ∧
        pd.wants_ack = false ∧ pd.max_retransmissions = 0) := by
  have hiff : ∀ p : DecodedPacket,
      (packet_wants_ack p = true ↔ p.port_num = .Known .RoutingApp) := by
    intro p
    cases hp : p.port_num with
    | Known pn => cases pn <;> simp [packet_wants_ack, hp]
    | Unknown i => simp [packet_wants_ack, hp]
  have hfalse : ∀ p : DecodedPacket, p.port_num ≠ .Known .RoutingApp →
      packet_wants_ack p = false := by
    intro p hne
    cases hb : packet_wants_ack p
    · rfl
    · exact absurd ((hiff p).mp hb) hne
  have hzero : ∀ p : DecodedPacket, p.port_num ≠ .Known .RoutingApp →
      get_max_retransmissions p (packet_wants_ack p) = 0 := by
    intro p hne
    rw [hfalse p hne]
    rfl
  refine ⟨hiff, ?_, hzero, ?_, ?_⟩
  · intro p f wr
    rfl
  · intro st now id pd hnd h hmax
    constructor
    · exact handle_transmitted_remove_step st now id pd hnd h (by omega)
    · unfold RelayState.handle_transmitted_packet
      rw [h]
      dsimp only
      rw [if_neg (by simp [PendingPacket.has_retransmissions_left]; omega)]
  · intro st now delay_ms p priority hne hok
    refine ⟨_, queue_packet_ok_lookup st now delay_ms p (packet_wants_ack p)
      priority hok, hfalse p hne, hzero p hne⟩

/-- A text packet with fresh id 77, queued into the non-full `stateC2`. -/
def packetC10 : DecodedPacket := samplePacket 31 6 77 3 3 (.Known .TextMessageApp)

/-- Witness for C10: the entry queued for the non-routing `packetC10` carries
`wants_ack = false` and `max_retransmissions = 0`. -/
theorem C10_witness :
    ∃ pd, mapLookup (stateC2.queue_packet 0 100 packetC10
        (packet_wants_ack packetC10) 64).1.pending_packets
      packetC10.header.packet_id = some pd ∧
      pd.wants_ack = false ∧ pd.max_retransmissions = 0 := by
  obtain ⟨-, -, -, -, he⟩ := C10_ack_policy
  exact he stateC2 0 100 packetC10 64 (by decide) (by rfl)
